import Mathlib

/-!
A shallow embedding of the split-adjustment, persistence, query and refresh
logic of the stock-watch-list REST service (Node.js/SQLite), together with
proofs about it.

Modelling conventions:
* JavaScript numbers are modelled as rational numbers (`ℚ`); `Number(x.toFixed(4))`
  is modelled as rounding to 4 decimal places and `Math.round` as rounding
  half toward positive infinity (Mathlib's `round`), which is what `Math.round`
  does on ideal reals.
* Dates travel through the code as `YYYY-MM-DD` strings that JavaScript
  compares lexicographically; for strings of this fixed shape that comparison
  coincides with the numeric order of the digits, so the model represents a
  date by the number `YYYYMMDD : ℕ` (an order isomorphism).
* `symbol.toUpperCase()` is modelled by `jsToUpper`, mapping `Char.toUpper`
  over the string's characters.
* A SQLite table is a list of rows; a `db.all`/`db.get` result that can fail
  with an I/O error is modelled as an `Except String` value.
* Promise rejection / thrown exceptions are modelled by `Except`;
  `console.error` output in a catch block is modelled as a list of warning
  strings returned alongside the value.
-/

namespace StockWatch

/-- `s.toUpperCase()`: uppercase every character.  (Extensionally the same
map as `String.toUpper`, but written so the kernel can evaluate it.) -/
def jsToUpper (s : String) : String := ⟨s.data.map Char.toUpper⟩

/-- A row of the `stock_splits` table (database.js): symbol, split date,
split ratio and description, with a UNIQUE constraint on
(symbol, split_date).  The wall-clock `created_at` column is not modelled. -/
structure SplitEvent where
  symbol : String
  split_date : ℕ
  split_ratio : ℚ
  description : String
deriving DecidableEq

/-- Insert one element into a list sorted by the `le` key, keeping earlier
elements first on ties (models the stable ORDER BY of SQLite). -/
def insertLe (le : α → α → Bool) (e : α) : List α → List α
  | [] => [e]
  | x :: xs => if le x e then x :: insertLe le e xs else e :: x :: xs

/-- Insertion sort by `le`; only its permutation property matters to the
claims (no claim depends on the sortedness itself). -/
def sortLe (le : α → α → Bool) : List α → List α
  | [] => []
  | x :: xs => insertLe le x (sortLe le xs)

/-- `getStockSplits` (splitAdjustmentService.js, lines 17-32): SELECT the
rows of `stock_splits` whose symbol is the upper-cased query symbol, ORDER BY
split_date ASC.  The underlying db handle may fail with an I/O error, hence
the `Except` in and out. -/
def getStockSplits (dbres : Except String (List SplitEvent)) (symbol : String) :
    Except String (List SplitEvent) :=
  match dbres with
  | .error e => .error e
  | .ok rows =>
      .ok (sortLe (fun a b => a.split_date ≤ b.split_date)
            (rows.filter fun r => r.symbol = jsToUpper symbol))

/-- `getSplitAdjustmentFactor` (splitAdjustmentService.js, lines 40-58):
filter the symbol's splits to those with `split_date > date` and multiply
their ratios starting from 1.0; on a registry read error the catch block
returns 1.0. -/
def getSplitAdjustmentFactor (dbres : Except String (List SplitEvent))
    (symbol : String) (date : ℕ) : ℚ :=
  match getStockSplits dbres symbol with
  | .error _ => 1
  | .ok splits =>
      ((splits.filter fun s => date < s.split_date).foldl
        (fun a s => a * s.split_ratio) 1)

/-- A raw daily price record as handed to the adjustment service
(symbol, date, OHLCV). -/
structure StockRecord where
  symbol : String
  date : ℕ
  «open» : ℚ
  high : ℚ
  low : ℚ
  close : ℚ
  volume : ℚ
deriving DecidableEq

/-- The record produced by the adjustment service: the raw fields (possibly
rescaled) plus `adjusted_close`, `split_adjusted` and `adjustment_factor`. -/
structure AdjustedRecord where
  symbol : String
  date : ℕ
  «open» : ℚ
  high : ℚ
  low : ℚ
  close : ℚ
  volume : ℚ
  adjusted_close : ℚ
  split_adjusted : Bool
  adjustment_factor : ℚ
deriving DecidableEq

/-- `Number(x.toFixed(4))`: round to 4 decimal places. -/
def round4 (x : ℚ) : ℚ := (round (x * 10000) : ℤ) / 10000

/-- The pass-through result `{...record, adjusted_close: close,
split_adjusted: false, adjustment_factor: 1.0}` built by the factor-1.0
branch, the no-splits branch and the catch blocks alike. -/
def passThroughRecord (r : StockRecord) : AdjustedRecord :=
  { symbol := r.symbol, date := r.date, «open» := r.«open», high := r.high
    low := r.low, close := r.close, volume := r.volume
    adjusted_close := r.close, split_adjusted := false, adjustment_factor := 1 }

/-- The adjusted result built when the factor differs from 1.0: each price
divided by the factor and rounded to 4 decimals, the volume multiplied by the
factor and rounded to the nearest integer (`Math.round`). -/
def splitAdjustedRecord (r : StockRecord) (adjustmentFactor : ℚ) : AdjustedRecord :=
  { symbol := r.symbol, date := r.date
    «open» := round4 (r.«open» / adjustmentFactor)
    high := round4 (r.high / adjustmentFactor)
    low := round4 (r.low / adjustmentFactor)
    close := round4 (r.close / adjustmentFactor)
    volume := (round (r.volume * adjustmentFactor) : ℤ)
    adjusted_close := round4 (r.close / adjustmentFactor)
    split_adjusted := true, adjustment_factor := adjustmentFactor }

/-- `adjustStockRecord` (splitAdjustmentService.js, lines 65-106).  Its own
catch block is unreachable in the model because `getSplitAdjustmentFactor`
already absorbs the registry failure. -/
def adjustStockRecord (dbres : Except String (List SplitEvent))
    (stockRecord : StockRecord) : AdjustedRecord :=
  let adjustmentFactor :=
    getSplitAdjustmentFactor dbres stockRecord.symbol stockRecord.date
  if adjustmentFactor = 1 then passThroughRecord stockRecord
  else splitAdjustedRecord stockRecord adjustmentFactor

/-- The body of the `stockRecords.map` inside `adjustStockRecords`
(splitAdjustmentService.js, lines 134-165): recompute the cumulative factor
for one record against the splits fetched once for the batch. -/
def adjustOneAgainst (splits : List SplitEvent) (record : StockRecord) :
    AdjustedRecord :=
  let adjustmentFactor :=
    ((splits.filter fun s => record.date < s.split_date).foldl
      (fun a s => a * s.split_ratio) 1)
  if adjustmentFactor = 1 then passThroughRecord record
  else splitAdjustedRecord record adjustmentFactor

/-- What a call to `adjustStockRecords` produces: the adjusted records, the
warnings it logged (`console.error` in the catch block) and how many times it
read the split registry. -/
structure BatchResult where
  records : List AdjustedRecord
  warnings : List String
  registryReads : ℕ
deriving DecidableEq

/-- `adjustStockRecords` (splitAdjustmentService.js, lines 113-177): empty
input is returned as is; otherwise the registry is read once for the first
record's symbol; a read failure degrades every record to pass-through with a
logged warning; an empty split list short-circuits to pass-through; otherwise
every record is adjusted against the shared split list. -/
def adjustStockRecords (dbres : Except String (List SplitEvent)) :
    List StockRecord → BatchResult
  | [] => { records := [], warnings := [], registryReads := 0 }
  | r :: rs =>
      match getStockSplits dbres r.symbol with
      | .error e =>
          { records := (r :: rs).map passThroughRecord
            warnings := ["Error adjusting stock records: " ++ e]
            registryReads := 1 }
      | .ok splits =>
          if splits = [] then
            { records := (r :: rs).map passThroughRecord
              warnings := [], registryReads := 1 }
          else
            { records := (r :: rs).map (adjustOneAgainst splits)
              warnings := [], registryReads := 1 }

/-- `INSERT OR IGNORE INTO stock_splits` under the UNIQUE(symbol, split_date)
constraint (database.js `initializeSplitData`, and `fetchAndStoreSplits`):
a conflicting row leaves the table untouched and reports 0 changes, otherwise
the row is appended and 1 change reported (node-sqlite3 `this.changes`). -/
def splitsInsertOrIgnore (tbl : List SplitEvent) (e : SplitEvent) :
    List SplitEvent × ℕ :=
  if tbl.any fun r => r.symbol = e.symbol ∧ r.split_date = e.split_date then
    (tbl, 0)
  else (tbl ++ [e], 1)

/-- `addStockSplit` (splitAdjustmentService.js, lines 233-248) runs
`INSERT OR REPLACE INTO stock_splits`: a row conflicting on
(symbol, split_date) is deleted and the new row appended in its stead, with
no error reported. -/
def addStockSplit (tbl : List SplitEvent) (symbol : String) (splitDate : ℕ)
    (splitRatio : ℚ) (description : String) : List SplitEvent :=
  (tbl.filter fun r =>
      ¬(r.symbol = jsToUpper symbol ∧ r.split_date = splitDate)) ++
    [{ symbol := jsToUpper symbol, split_date := splitDate
       split_ratio := splitRatio, description := description }]

/-- One split returned by the upstream provider's SPLITS endpoint:
`effective_date` and the `split_factor` string; `ratio` models
`parseFloat(split.split_factor)`. -/
structure ProviderSplit where
  effective_date : ℕ
  split_factor : String
  ratio : ℚ
deriving DecidableEq

/-- The storing loop of `fetchAndStoreSplits` (database.js/startup refresh
service, lines 382-406): each provider split is inserted with
`INSERT OR IGNORE`; `this.changes > 0` counts it as inserted, otherwise as
skipped.  Returns (table, inserted, skipped). -/
def fetchAndStoreSplits (tbl : List SplitEvent) (symbol : String)
    (splits : List ProviderSplit) : List SplitEvent × ℕ × ℕ :=
  splits.foldl
    (fun acc sp =>
      let inserted :=
        splitsInsertOrIgnore acc.1
          { symbol := jsToUpper symbol, split_date := sp.effective_date
            split_ratio := sp.ratio
            description := sp.split_factor ++ " stock split" }
      if inserted.2 > 0 then (inserted.1, acc.2.1 + 1, acc.2.2)
      else (inserted.1, acc.2.1, acc.2.2 + 1))
    (tbl, 0, 0)

/-- A row of the `historical_stock_data` table (database.js): the persisted
adjusted OHLCV values with UNIQUE(symbol, date).  `id` (the rowid) is kept
next to the row in `HistTable`; `created_at` is not modelled. -/
structure PriceRow where
  symbol : String
  date : ℕ
  «open» : ℚ
  high : ℚ
  low : ℚ
  close : ℚ
  adjusted_close : ℚ
  volume : ℚ
deriving DecidableEq

/-- The `historical_stock_data` table: rows paired with their rowids, and
the next fresh rowid (always positive, as SQLite rowids start at 1). -/
structure HistTable where
  rows : List (ℕ × PriceRow)
  nextId : ℕ
deriving DecidableEq

/-- What node-sqlite3 hands the `db.run` callback: `this.changes` and
`this.lastID`. -/
structure RunResult where
  changes : ℕ
  lastID : ℕ
deriving DecidableEq

/-- `INSERT OR REPLACE INTO historical_stock_data` under
UNIQUE(symbol, date): the conflicting row (if any) is deleted and the new row
inserted with a fresh rowid.  SQLite's `changes()` counts the insert (1) and
not the conflict deletion, and `last_insert_rowid()` is the fresh rowid, so
the callback always sees `changes = 1` and a nonzero `lastID`. -/
def histInsertOrReplace (t : HistTable) (r : PriceRow) : HistTable × RunResult :=
  ({ rows :=
        (t.rows.filter fun p => ¬(p.2.symbol = r.symbol ∧ p.2.date = r.date)) ++
          [(t.nextId, r)]
     nextId := t.nextId + 1 },
   { changes := 1, lastID := t.nextId })

/-- The columns `storeHistoricalData` writes for one adjusted record. -/
def recordToRow (a : AdjustedRecord) : PriceRow :=
  { symbol := a.symbol, date := a.date, «open» := a.«open», high := a.high
    low := a.low, close := a.close, adjusted_close := a.adjusted_close
    volume := a.volume }

/-- The `{inserted, updated, skipped}` accounting of `storeHistoricalData`. -/
structure StoreCounts where
  inserted : ℕ
  updated : ℕ
  skipped : ℕ
deriving DecidableEq

/-- `storeHistoricalData` (dataRefreshService.js, lines 15-78): empty input
resolves to zero counts; otherwise the batch is split-adjusted first and each
record written with `INSERT OR REPLACE`; the callback counts `inserted` when
`this.changes > 0` and `this.lastID` is truthy, `updated` when `this.changes
> 0` with a falsy `lastID`, and `skipped` otherwise. -/
def storeHistoricalData (dbres : Except String (List SplitEvent))
    (t : HistTable) (historicalData : List StockRecord) :
    HistTable × StoreCounts :=
  match historicalData with
  | [] => (t, { inserted := 0, updated := 0, skipped := 0 })
  | _ :: _ =>
      ((adjustStockRecords dbres historicalData).records).foldl
        (fun acc record =>
          let written := histInsertOrReplace acc.1 (recordToRow record)
          if written.2.changes > 0 then
            if written.2.lastID ≠ 0 then
              (written.1, { acc.2 with inserted := acc.2.inserted + 1 })
            else (written.1, { acc.2 with updated := acc.2.updated + 1 })
          else (written.1, { acc.2 with skipped := acc.2.skipped + 1 }))
        (t, { inserted := 0, updated := 0, skipped := 0 })

/-- The optional filters of `getHistoricalData` / query `options`:
`startDate`, `endDate` and `limit` (defaulting to 1000 in
`getHistoricalData`'s signature). -/
structure QueryOptions where
  startDate : Option ℕ := none
  endDate : Option ℕ := none
  limit : Option ℕ := none
deriving DecidableEq

/-- Whether a row passes the optional `date >= startDate` / `date <= endDate`
clauses of `getHistoricalData`. -/
def inDateRange (o : QueryOptions) (date : ℕ) : Prop :=
  (∀ s, o.startDate = some s → s ≤ date) ∧ (∀ e, o.endDate = some e → date ≤ e)

instance (o : QueryOptions) (date : ℕ) : Decidable (inDateRange o date) := by
  unfold inDateRange; infer_instance

/-- `getHistoricalData` (dataRefreshService.js, lines 132-164): SELECT the
symbol's rows filtered by the optional date range, ORDER BY date DESC,
LIMIT `limit` (1000 when the caller passed none). -/
def getHistoricalData (store : List PriceRow) (symbol : String)
    (o : QueryOptions) : List PriceRow :=
  ((sortLe (fun a b => b.date ≤ a.date)
      (store.filter fun r =>
        r.symbol = jsToUpper symbol ∧ inDateRange o r.date))).take
    (o.limit.getD 1000)

/-- The object `executeQuery`/`executeMultipleQueries` build for JSONata:
scalar metadata plus the loaded series under `data`.  The `startDate` /
`endDate` metadata render as the strings `'earliest'` / `'latest'` when no
filter was given; the model keeps the options themselves. -/
structure HistoricalData where
  symbol : String
  count : ℕ
  startDate : Option ℕ
  endDate : Option ℕ
  data : List PriceRow

/-- A compiled JSONata expression as the query service consumes it: an
evaluator over the loaded data that either produces a value or fails
(compile errors and runtime errors both surface as thrown messages).  The
jsonata library itself is an external dependency and is left abstract. -/
def Query (V : Type) : Type := HistoricalData → Except String V

/-- What `executeQuery` resolves to: a success envelope with the data count
and the result, or `{success: false, error, symbol}`. -/
inductive QueryResponse (V : Type) where
  | success (symbol : String) (dataCount : ℕ) (result : V)
  | failure (error : String) (symbol : String)

/-- What `executeMultipleQueries` resolves to: a success envelope holding one
entry per named query — the value, or `{error: message}` for the queries that
failed — or the whole-call failure envelope. -/
inductive MultiResponse (V : Type) where
  | success (symbol : String) (dataCount : ℕ)
      (results : List (String × Except String V))
  | failure (error : String) (symbol : String)

/-- The `historicalData` wrapper object that both `executeQuery` (lines
43-49) and `executeMultipleQueries` (lines 97-103) build around the loaded
series. -/
def loadedContext (store : List PriceRow) (symbol : String) (o : QueryOptions) :
    HistoricalData :=
  { symbol := jsToUpper symbol
    count := (getHistoricalData store symbol o).length
    startDate := o.startDate, endDate := o.endDate
    data := getHistoricalData store symbol o }

/-- `executeQuery` (queryService.js, lines 28-77): load the series, fail with
"No historical data found" when it is empty, otherwise evaluate the
expression against the wrapped data; a thrown evaluation error becomes the
failure envelope. -/
def executeQuery (store : List PriceRow) (symbol : String) (q : Query V)
    (o : QueryOptions) : QueryResponse V :=
  if getHistoricalData store symbol o = [] then
    .failure ("No historical data found for symbol " ++ symbol) symbol
  else
    match q (loadedContext store symbol o) with
    | .ok v => .success symbol (getHistoricalData store symbol o).length v
    | .error m => .failure m symbol

/-- `executeMultipleQueries` (queryService.js, lines 82-135): load the series
once, fail with "No historical data found" when it is empty, otherwise
evaluate every named expression against the shared load, catching each
expression's failure under its own key. -/
def executeMultipleQueries (store : List PriceRow) (symbol : String)
    (queries : List (String × Query V)) (o : QueryOptions) : MultiResponse V :=
  if getHistoricalData store symbol o = [] then
    .failure ("No historical data found for symbol " ++ symbol) symbol
  else
    .success symbol (getHistoricalData store symbol o).length
      (queries.map fun kq => (kq.1, kq.2 (loadedContext store symbol o)))

/-- A row of the `tracked_stocks` table: symbol (UNIQUE), name and the two
refresh-freshness dates; the wall-clock `last_updated` column is not
modelled. -/
structure TrackedStock where
  symbol : String
  name : String
  last_data_refresh : Option ℕ
  last_split_check : Option ℕ
deriving DecidableEq

/-- The persistent state the startup-refresh service works on, plus counters
of upstream (Alpha Vantage) calls made for data and for splits. -/
structure SchedState where
  tracked : List TrackedStock
  splitsTbl : List SplitEvent
  hist : HistTable
  dataCalls : ℕ
  splitCalls : ℕ
deriving DecidableEq

/-- `db.get` for a symbol's `tracked_stocks` row: the first row whose symbol
is the upper-cased argument. -/
def findTracked (tracked : List TrackedStock) (symbol : String) :
    Option TrackedStock :=
  tracked.find? fun r => r.symbol = jsToUpper symbol

/-- `needsDataRefresh` (startup refresh service, lines 260-279):
`!row?.last_data_refresh || row.last_data_refresh < today`. -/
def needsDataRefresh (tracked : List TrackedStock) (symbol : String)
    (today : ℕ) : Bool :=
  match findTracked tracked symbol with
  | none => true
  | some row =>
      match row.last_data_refresh with
      | none => true
      | some d => decide (d < today)

/-- `needsSplitCheck` (startup refresh service, lines 286-305). -/
def needsSplitCheck (tracked : List TrackedStock) (symbol : String)
    (today : ℕ) : Bool :=
  match findTracked tracked symbol with
  | none => true
  | some row =>
      match row.last_split_check with
      | none => true
      | some d => decide (d < today)

/-- `markDataRefreshed` (startup refresh service, lines 312-330): UPDATE the
symbol's rows, setting `last_data_refresh = today`. -/
def markDataRefreshed (tracked : List TrackedStock) (symbol : String)
    (today : ℕ) : List TrackedStock :=
  tracked.map fun r =>
    if r.symbol = jsToUpper symbol then { r with last_data_refresh := some today }
    else r

/-- `markSplitChecked` (startup refresh service, lines 337-355). -/
def markSplitChecked (tracked : List TrackedStock) (symbol : String)
    (today : ℕ) : List TrackedStock :=
  tracked.map fun r =>
    if r.symbol = jsToUpper symbol then { r with last_split_check := some today }
    else r

/-- The per-symbol outcome `refreshSymbol` resolves with. -/
structure RefreshResult where
  symbol : String
  dataRefreshed : Bool
  splitsChecked : Bool
  errors : List String
deriving DecidableEq

/-- `refreshSymbol` (startup refresh service, lines 422-486).  If the data is
stale, one upstream fetch is attempted (counted in `dataCalls` whether or not
it succeeds); on success the batch is stored through `storeHistoricalData`
(which split-adjusts against the current registry) and `markDataRefreshed`
runs.  Then, if the split check is stale, one upstream splits fetch is
attempted (counted in `splitCalls`); on success the splits are stored with
`fetchAndStoreSplits` and `markSplitChecked` runs.  Fetch failures are pushed
onto `result.errors` and do not abort the other step.  The fetch outcomes are
parameters (`fetchData`, `fetchSplits`). -/
def refreshSymbol (st : SchedState) (symbol : String) (today : ℕ)
    (fetchData : Except String (List StockRecord))
    (fetchSplits : Except String (List ProviderSplit)) :
    SchedState × RefreshResult :=
  let r0 : RefreshResult :=
    { symbol := symbol, dataRefreshed := false, splitsChecked := false
      errors := [] }
  let afterData : SchedState × RefreshResult :=
    if needsDataRefresh st.tracked symbol today then
      match fetchData with
      | .ok historicalData =>
          let stored := storeHistoricalData (.ok st.splitsTbl) st.hist historicalData
          ({ st with
              dataCalls := st.dataCalls + 1
              hist := stored.1
              tracked := markDataRefreshed st.tracked symbol today },
           { r0 with dataRefreshed := true })
      | .error e =>
          ({ st with dataCalls := st.dataCalls + 1 },
           { r0 with errors := r0.errors ++ ["Data refresh: " ++ e] })
    else (st, r0)
  if needsSplitCheck afterData.1.tracked symbol today then
    match fetchSplits with
    | .ok providerSplits =>
        let stored := fetchAndStoreSplits afterData.1.splitsTbl symbol providerSplits
        ({ afterData.1 with
            splitCalls := afterData.1.splitCalls + 1
            splitsTbl := stored.1
            tracked := markSplitChecked afterData.1.tracked symbol today },
         { afterData.2 with splitsChecked := true })
    | .error e =>
        ({ afterData.1 with splitCalls := afterData.1.splitCalls + 1 },
         { afterData.2 with
            errors := afterData.2.errors ++ ["Split check: " ++ e] })
  else afterData

/-! ### Helper lemmas -/

theorem insertLe_perm (le : α → α → Bool) (e : α) (l : List α) :
    (insertLe le e l).Perm (e :: l) := by
  induction l with
  | nil => exact List.Perm.refl _
  | cons x xs ih =>
      by_cases h : le x e
      · simp only [insertLe, h, if_pos]
        exact (ih.cons x).trans (List.Perm.swap e x xs)
      · simp only [insertLe, h, if_neg, Bool.false_eq_true, not_false_iff]
        exact List.Perm.refl _

theorem sortLe_perm (le : α → α → Bool) (l : List α) : (sortLe le l).Perm l := by
  induction l with
  | nil => exact List.Perm.refl _
  | cons x xs ih => exact (insertLe_perm le x (sortLe le xs)).trans (ih.cons x)

theorem foldl_mul_ratio (l : List SplitEvent) (a : ℚ) :
    l.foldl (fun a s => a * s.split_ratio) a
      = a * (l.map SplitEvent.split_ratio).prod := by
  induction l generalizing a with
  | nil => simp
  | cons x xs ih => simp [List.foldl_cons, ih, mul_assoc]

theorem filter_symbol_then_date (db : List SplitEvent) (symbol : String) (date : ℕ) :
    ((db.filter fun r => r.symbol = jsToUpper symbol).filter
        fun s => date < s.split_date)
      = db.filter fun r => r.symbol = jsToUpper symbol ∧ date < r.split_date := by
  induction db with
  | nil => rfl
  | cons x xs ih =>
      by_cases h1 : x.symbol = jsToUpper symbol <;>
        by_cases h2 : date < x.split_date <;>
          simp [List.filter_cons, h1, h2, ih]

/-- The success path of `getSplitAdjustmentFactor` computes the product of
the ratios of the symbol's events dated strictly after `date`. -/
theorem getSplitAdjustmentFactor_ok (db : List SplitEvent) (symbol : String)
    (date : ℕ) :
    getSplitAdjustmentFactor (.ok db) symbol date
      = ((db.filter fun r => r.symbol = jsToUpper symbol ∧ date < r.split_date).map
          SplitEvent.split_ratio).prod := by
  have hperm :
      (((sortLe (fun a b => a.split_date ≤ b.split_date)
            (db.filter fun r => r.symbol = jsToUpper symbol)).filter
          fun s => date < s.split_date).map SplitEvent.split_ratio).Perm
        (((db.filter fun r => r.symbol = jsToUpper symbol).filter
            fun s => date < s.split_date).map SplitEvent.split_ratio) :=
    ((sortLe_perm _ _).filter _).map _
  calc getSplitAdjustmentFactor (.ok db) symbol date
      = (((sortLe (fun a b => a.split_date ≤ b.split_date)
              (db.filter fun r => r.symbol = jsToUpper symbol)).filter
            fun s => date < s.split_date).map SplitEvent.split_ratio).prod := by
        simp [getSplitAdjustmentFactor, getStockSplits, foldl_mul_ratio]
    _ = (((db.filter fun r => r.symbol = jsToUpper symbol).filter
            fun s => date < s.split_date).map SplitEvent.split_ratio).prod :=
        hperm.prod_eq
    _ = ((db.filter fun r => r.symbol = jsToUpper symbol ∧ date < r.split_date).map
          SplitEvent.split_ratio).prod := by
        rw [filter_symbol_then_date]

theorem one_le_prod_rat (l : List ℚ) (h : ∀ x ∈ l, 1 ≤ x) : 1 ≤ l.prod := by
  induction l with
  | nil => simp
  | cons x xs ih =>
      have hx : 1 ≤ x := h x (by simp)
      have hxs : 1 ≤ xs.prod := ih fun y hy => h y (by simp [hy])
      simp only [List.prod_cons]
      nlinarith

theorem prod_ratio_le_of_imp (l : List SplitEvent) (p q : SplitEvent → Prop)
    [DecidablePred p] [DecidablePred q] (hpq : ∀ e, p e → q e)
    (hr : ∀ e ∈ l, q e → 1 ≤ e.split_ratio) :
    ((l.filter fun e => p e).map SplitEvent.split_ratio).prod
      ≤ ((l.filter fun e => q e).map SplitEvent.split_ratio).prod := by
  induction l with
  | nil => simp
  | cons x xs ih =>
      have ih' := ih fun e he hq => hr e (by simp [he]) hq
      have hq1 : (1:ℚ) ≤ ((xs.filter fun e => q e).map SplitEvent.split_ratio).prod := by
        refine one_le_prod_rat _ fun y hy => ?_
        obtain ⟨e, he, rfl⟩ := List.mem_map.mp hy
        exact hr e (by simp [(List.mem_filter.mp he).1])
          (of_decide_eq_true (List.mem_filter.mp he).2)
      by_cases hp : p x
      · have hq : q x := hpq x hp
        have hx1 : 1 ≤ x.split_ratio := hr x (by simp) hq
        simp only [List.filter_cons, hp, hq, decide_eq_true_eq, if_pos,
          List.map_cons, List.prod_cons]
        nlinarith
      · by_cases hq : q x
        · have hx1 : 1 ≤ x.split_ratio := hr x (by simp) hq
          simp [List.filter_cons, hp, hq]
          nlinarith
        · simpa [List.filter_cons, hp, hq] using ih'

/-! ### Claims about the split registry and the adjustment engine -/

/-- C1: for every symbol and date, `getSplitAdjustmentFactor` returns the
product of `split_ratio` over exactly the recorded events for that
(upper-cased) symbol whose effective date is strictly after the given date,
and 1.0 when no such event exists. -/
theorem C1_cumulative_factor (db : List SplitEvent) (symbol : String) (date : ℕ) :
    getSplitAdjustmentFactor (.ok db) symbol date
      = ((db.filter fun r => r.symbol = jsToUpper symbol ∧ date < r.split_date).map
          SplitEvent.split_ratio).prod
    ∧ ((db.filter fun r => r.symbol = jsToUpper symbol ∧ date < r.split_date) = [] →
        getSplitAdjustmentFactor (.ok db) symbol date = 1) := by
  refine ⟨getSplitAdjustmentFactor_ok db symbol date, fun he => ?_⟩
  rw [getSplitAdjustmentFactor_ok db symbol date, he]
  simp

/-- C2: `adjustStockRecord` passes the record through (tagged, with
`adjusted_close = close`) when the cumulative factor is 1.0, and otherwise
divides each price by the factor rounding to 4 decimals, multiplies the
volume by the factor rounding to the nearest integer, and records the factor
used. -/
theorem C2_adjust_record (dbres : Except String (List SplitEvent))
    (r : StockRecord) :
    (getSplitAdjustmentFactor dbres r.symbol r.date = 1 →
      adjustStockRecord dbres r =
        { symbol := r.symbol, date := r.date, «open» := r.«open», high := r.high
          low := r.low, close := r.close, volume := r.volume
          adjusted_close := r.close, split_adjusted := false
          adjustment_factor := 1 })
    ∧ (getSplitAdjustmentFactor dbres r.symbol r.date ≠ 1 →
        adjustStockRecord dbres r =
          { symbol := r.symbol, date := r.date
            «open» := round4 (r.«open» / getSplitAdjustmentFactor dbres r.symbol r.date)
            high := round4 (r.high / getSplitAdjustmentFactor dbres r.symbol r.date)
            low := round4 (r.low / getSplitAdjustmentFactor dbres r.symbol r.date)
            close := round4 (r.close / getSplitAdjustmentFactor dbres r.symbol r.date)
            volume := ((round (r.volume * getSplitAdjustmentFactor dbres r.symbol r.date) : ℤ) : ℚ)
            adjusted_close := round4 (r.close / getSplitAdjustmentFactor dbres r.symbol r.date)
            split_adjusted := true
            adjustment_factor := getSplitAdjustmentFactor dbres r.symbol r.date }) := by
  constructor <;> intro h <;>
    simp [adjustStockRecord, h, passThroughRecord, splitAdjustedRecord]

/-- C5: when the registry read fails, `adjustStockRecords` returns every
input record with its raw values intact, tagged `split_adjusted = false` and
`adjustment_factor = 1.0`, and (whenever there was anything to adjust) logs a
warning instead of rejecting. -/
theorem C5_registry_error_degrades (e : String) (records : List StockRecord) :
    (adjustStockRecords (.error e) records).records
      = records.map (fun r =>
          ({ symbol := r.symbol, date := r.date, «open» := r.«open»
             high := r.high, low := r.low, close := r.close, volume := r.volume
             adjusted_close := r.close, split_adjusted := false
             adjustment_factor := 1 } : AdjustedRecord))
    ∧ (records ≠ [] →
        (adjustStockRecords (.error e) records).warnings
          = ["Error adjusting stock records: " ++ e]) := by
  cases records with
  | nil => simp [adjustStockRecords]
  | cons r rs =>
      constructor
      · simp [adjustStockRecords, getStockSplits, passThroughRecord]
      · intro _
        simp [adjustStockRecords, getStockSplits]

/-- C9: with every recorded ratio of the symbol at least 1, the cumulative
adjustment factor is non-increasing in the record date. -/
theorem C9_factor_antitone (db : List SplitEvent) (symbol : String)
    (d1 d2 : ℕ)
    (hr : ∀ e ∈ db, e.symbol = jsToUpper symbol → 1 ≤ e.split_ratio)
    (h12 : d1 ≤ d2) :
    getSplitAdjustmentFactor (.ok db) symbol d2
      ≤ getSplitAdjustmentFactor (.ok db) symbol d1 := by
  rw [getSplitAdjustmentFactor_ok, getSplitAdjustmentFactor_ok]
  refine prod_ratio_le_of_imp db
    (fun e => e.symbol = jsToUpper symbol ∧ d2 < e.split_date)
    (fun e => e.symbol = jsToUpper symbol ∧ d1 < e.split_date)
    (fun e he => ⟨he.1, lt_of_le_of_lt h12 he.2⟩)
    (fun e he hq => hr e he hq.1)

/-- Witness for C9 at the concrete registry of spec §8: one 10-for-1 split
on 2024-06-07; the factor at 2024-07-01 (1.0) is at most the one at
2024-01-01 (10.0). -/
theorem C9_factor_antitone_witness :
    getSplitAdjustmentFactor
        (.ok [{ symbol := "X", split_date := 20240607, split_ratio := 10
                description := "10-for-1 stock split" }]) "X" 20240701
      ≤ getSplitAdjustmentFactor
          (.ok [{ symbol := "X", split_date := 20240607, split_ratio := 10
                  description := "10-for-1 stock split" }]) "X" 20240101 :=
  C9_factor_antitone _ "X" 20240101 20240701
    (by
      intro e he _
      simp only [List.mem_singleton] at he
      subst he
      norm_num)
    (by norm_num)

theorem adjustStockRecord_cases (dbres : Except String (List SplitEvent))
    (x : StockRecord) :
    adjustStockRecord dbres x =
      match getStockSplits dbres x.symbol with
      | .error _ => passThroughRecord x
      | .ok s => adjustOneAgainst s x := by
  unfold adjustStockRecord getSplitAdjustmentFactor adjustOneAgainst
  cases getStockSplits dbres x.symbol <;> simp

theorem adjustOneAgainst_nil (x : StockRecord) :
    adjustOneAgainst [] x = passThroughRecord x := by
  simp [adjustOneAgainst]

theorem forall2_map_self (P : α → β → Prop) (g : α → β) (h : ∀ x ∈ l, P x (g x)) :
    List.Forall₂ P l (l.map g) := by
  induction l with
  | nil => simp
  | cons x xs ih =>
      exact List.Forall₂.cons (h x (by simp)) (ih fun y hy => h y (by simp [hy]))

/-- C8: on a non-empty batch whose records all carry the first record's
symbol, `adjustStockRecords` returns exactly the records that
`adjustStockRecord` would produce one by one, while reading the split
registry once for the whole batch. -/
theorem C8_batch_refines_single (dbres : Except String (List SplitEvent))
    (r : StockRecord) (rs : List StockRecord)
    (hsym : ∀ x ∈ r :: rs, x.symbol = r.symbol) :
    (adjustStockRecords dbres (r :: rs)).records
        = (r :: rs).map (adjustStockRecord dbres)
    ∧ (adjustStockRecords dbres (r :: rs)).registryReads = 1 := by
  have hone : ∀ x ∈ r :: rs, adjustStockRecord dbres x =
      match getStockSplits dbres r.symbol with
      | .error _ => passThroughRecord x
      | .ok s => adjustOneAgainst s x := by
    intro x hx
    rw [adjustStockRecord_cases, hsym x hx]
  constructor
  · cases h : getStockSplits dbres r.symbol with
    | error e =>
        simp only [adjustStockRecords, h]
        refine (List.map_congr_left fun x hx => ?_).symm
        rw [hone x hx, h]
    | ok splits =>
        by_cases hnil : splits = []
        · subst hnil
          simp only [adjustStockRecords, h, if_pos]
          refine (List.map_congr_left fun x hx => ?_).symm
          rw [hone x hx, h]
          exact adjustOneAgainst_nil x
        · simp only [adjustStockRecords, h, hnil, if_neg, not_false_iff]
          refine (List.map_congr_left fun x hx => ?_).symm
          rw [hone x hx, h]
  · cases h : getStockSplits dbres r.symbol with
    | error e => simp [adjustStockRecords, h]
    | ok splits =>
        by_cases hnil : splits = [] <;> simp [adjustStockRecords, h, hnil]

/-- Witness for C8: a one-record batch for symbol "X" against a registry
with one 10-for-1 split. -/
theorem C8_batch_refines_single_witness :
    (adjustStockRecords
          (.ok [{ symbol := "X", split_date := 20240607, split_ratio := 10
                  description := "10-for-1 stock split" }])
          [{ symbol := "X", date := 20240101, «open» := 1100, high := 1250
             low := 1050, close := 1200, volume := 5000 }]).records
        = [{ symbol := "X", date := 20240101, «open» := 1100, high := 1250
             low := 1050, close := 1200, volume := 5000 }].map
            (adjustStockRecord
              (.ok [{ symbol := "X", split_date := 20240607, split_ratio := 10
                      description := "10-for-1 stock split" }]))
    ∧ (adjustStockRecords
          (.ok [{ symbol := "X", split_date := 20240607, split_ratio := 10
                  description := "10-for-1 stock split" }])
          [{ symbol := "X", date := 20240101, «open» := 1100, high := 1250
             low := 1050, close := 1200, volume := 5000 }]).registryReads = 1 :=
  C8_batch_refines_single _ _ _ (by intro x hx; simp only [List.mem_singleton] at hx; rw [hx])

/-- C10: the adjustment engine never touches `symbol` or `date`, and in the
pass-through case (tagged by `adjustment_factor = 1`, which covers both the
factor-1.0 branch and a symbol with no recorded splits) it leaves the raw
OHLCV values unchanged — for the single-record path and, positionally, for
the batch path. -/
theorem C10_frame (dbres : Except String (List SplitEvent)) (r : StockRecord)
    (records : List StockRecord) :
    ((adjustStockRecord dbres r).symbol = r.symbol
      ∧ (adjustStockRecord dbres r).date = r.date
      ∧ ((adjustStockRecord dbres r).adjustment_factor = 1 →
          (adjustStockRecord dbres r).«open» = r.«open»
            ∧ (adjustStockRecord dbres r).high = r.high
            ∧ (adjustStockRecord dbres r).low = r.low
            ∧ (adjustStockRecord dbres r).close = r.close
            ∧ (adjustStockRecord dbres r).volume = r.volume))
    ∧ List.Forall₂
        (fun x a => a.symbol = x.symbol ∧ a.date = x.date
          ∧ (a.adjustment_factor = 1 →
              a.«open» = x.«open» ∧ a.high = x.high ∧ a.low = x.low
                ∧ a.close = x.close ∧ a.volume = x.volume))
        records (adjustStockRecords dbres records).records := by
  have hpass : ∀ x : StockRecord,
      (passThroughRecord x).symbol = x.symbol
        ∧ (passThroughRecord x).date = x.date
        ∧ ((passThroughRecord x).adjustment_factor = 1 →
            (passThroughRecord x).«open» = x.«open»
              ∧ (passThroughRecord x).high = x.high
              ∧ (passThroughRecord x).low = x.low
              ∧ (passThroughRecord x).close = x.close
              ∧ (passThroughRecord x).volume = x.volume) := by
    intro x
    simp [passThroughRecord]
  have hadj : ∀ (splits : List SplitEvent) (x : StockRecord),
      (adjustOneAgainst splits x).symbol = x.symbol
        ∧ (adjustOneAgainst splits x).date = x.date
        ∧ ((adjustOneAgainst splits x).adjustment_factor = 1 →
            (adjustOneAgainst splits x).«open» = x.«open»
              ∧ (adjustOneAgainst splits x).high = x.high
              ∧ (adjustOneAgainst splits x).low = x.low
              ∧ (adjustOneAgainst splits x).close = x.close
              ∧ (adjustOneAgainst splits x).volume = x.volume) := by
    intro splits x
    unfold adjustOneAgainst
    by_cases h : ((splits.filter fun s => x.date < s.split_date).foldl
        (fun a s => a * s.split_ratio) 1) = 1
    · simp [h, passThroughRecord]
    · simp only [h, if_neg, not_false_iff]
      refine ⟨rfl, rfl, fun h1 => absurd ?_ h⟩
      simpa [splitAdjustedRecord] using h1
  constructor
  · rw [adjustStockRecord_cases]
    cases getStockSplits dbres r.symbol with
    | error e => exact hpass r
    | ok splits => exact hadj splits r
  · cases records with
    | nil => simp [adjustStockRecords]
    | cons x xs =>
        cases h : getStockSplits dbres x.symbol with
        | error e =>
            simp only [adjustStockRecords, h]
            exact forall2_map_self _ _ fun y _ => hpass y
        | ok splits =>
            by_cases hnil : splits = [] <;>
              simp only [adjustStockRecords, h, hnil, if_pos, if_neg,
                not_false_iff]
            · exact forall2_map_self _ _ fun y _ => hpass y
            · exact forall2_map_self _ _ fun y _ => hadj splits y

/-! ### Claims about the split-registry writes and the store -/

theorem foldl_step_extends
    (step : List SplitEvent × ℕ × ℕ → ProviderSplit → List SplitEvent × ℕ × ℕ)
    (hstep : ∀ acc sp, ∃ e0, (step acc sp).1 = acc.1 ++ e0) :
    ∀ (ps : List ProviderSplit) (acc : List SplitEvent × ℕ × ℕ),
      ∃ extra, (ps.foldl step acc).1 = acc.1 ++ extra := by
  intro ps
  induction ps with
  | nil => exact fun acc => ⟨[], by simp⟩
  | cons sp ps ih =>
      intro acc
      obtain ⟨e0, h0⟩ := hstep acc sp
      obtain ⟨extra, hextra⟩ := ih (step acc sp)
      exact ⟨e0 ++ extra, by rw [List.foldl_cons, hextra, h0, List.append_assoc]⟩

theorem splitsInsertOrIgnore_fst (tbl : List SplitEvent) (e : SplitEvent) :
    (splitsInsertOrIgnore tbl e).1 = tbl ∨
      (splitsInsertOrIgnore tbl e).1 = tbl ++ [e] := by
  unfold splitsInsertOrIgnore
  split
  · exact .inl rfl
  · exact .inr rfl

theorem fetchAndStoreSplits_extends (symbol : String)
    (ps : List ProviderSplit) (tbl : List SplitEvent) :
    ∃ extra, (fetchAndStoreSplits tbl symbol ps).1 = tbl ++ extra := by
  unfold fetchAndStoreSplits
  exact foldl_step_extends _
    (fun acc sp => by
      rcases splitsInsertOrIgnore_fst acc.1
          { symbol := jsToUpper symbol, split_date := sp.effective_date
            split_ratio := sp.ratio
            description := sp.split_factor ++ " stock split" } with h | h
      · refine ⟨[], ?_⟩
        show (if _ > 0 then _ else _ : List SplitEvent × ℕ × ℕ).1 = _
        rw [apply_ite Prod.fst]
        simp [h]
      · refine ⟨[{ symbol := jsToUpper symbol, split_date := sp.effective_date
                   split_ratio := sp.ratio
                   description := sp.split_factor ++ " stock split" }], ?_⟩
        show (if _ > 0 then _ else _ : List SplitEvent × ℕ × ℕ).1 = _
        rw [apply_ite Prod.fst]
        simp [h])
    ps (tbl, 0, 0)

/-- C7 counterexample: `addStockSplit` on a (symbol, date) key that already
exists is not a no-op — the previously recorded 10-for-1 event is replaced by
the newly supplied 4-for-1 event. -/
theorem C7_counterexample_addStockSplit_replaces :
    addStockSplit
        [{ symbol := "NVDA", split_date := 20240607, split_ratio := 10
           description := "10-for-1 stock split" }]
        "NVDA" 20240607 4 "4-for-1 stock split"
      = [{ symbol := "NVDA", split_date := 20240607, split_ratio := 4
           description := "4-for-1 stock split" }]
    ∧ addStockSplit
        [{ symbol := "NVDA", split_date := 20240607, split_ratio := 10
           description := "10-for-1 stock split" }]
        "NVDA" 20240607 4 "4-for-1 stock split"
      ≠ [{ symbol := "NVDA", split_date := 20240607, split_ratio := 10
           description := "10-for-1 stock split" }] := by
  constructor <;> decide

/-- C7 (amended): inserts through `INSERT OR IGNORE` — the seed data and the
provider fetch — are silent no-ops on a duplicate (symbol, split_date) and
never modify recorded events (`fetchAndStoreSplits` only ever appends); the
maintenance entry point `addStockSplit`, however, uses `INSERT OR REPLACE`:
on a duplicate key it silently replaces the recorded event with the new
ratio and description, keeping a single row for the key. -/
theorem C7_registry_write_semantics (tbl : List SplitEvent) (e : SplitEvent)
    (symbol : String) (splitDate : ℕ) (ratio : ℚ) (descr : String)
    (ps : List ProviderSplit)
    (hdup : ∃ r ∈ tbl, r.symbol = e.symbol ∧ r.split_date = e.split_date) :
    splitsInsertOrIgnore tbl e = (tbl, 0)
    ∧ (∃ extra, (fetchAndStoreSplits tbl symbol ps).1 = tbl ++ extra)
    ∧ ({ symbol := jsToUpper symbol, split_date := splitDate
         split_ratio := ratio, description := descr } : SplitEvent)
        ∈ addStockSplit tbl symbol splitDate ratio descr
    ∧ (∀ r ∈ addStockSplit tbl symbol splitDate ratio descr,
        r.symbol = jsToUpper symbol → r.split_date = splitDate →
          r = { symbol := jsToUpper symbol, split_date := splitDate
                split_ratio := ratio, description := descr })
    ∧ (∀ r ∈ tbl, ¬(r.symbol = jsToUpper symbol ∧ r.split_date = splitDate) →
        r ∈ addStockSplit tbl symbol splitDate ratio descr) := by
  refine ⟨?_, fetchAndStoreSplits_extends symbol ps tbl, ?_, ?_, ?_⟩
  · obtain ⟨r, hr, hkey⟩ := hdup
    simp only [splitsInsertOrIgnore]
    rw [if_pos (List.any_eq_true.mpr ⟨r, hr, decide_eq_true hkey⟩)]
  · simp [addStockSplit]
  · intro r hr hsy hsd
    rcases List.mem_append.mp hr with hmem | hmem
    · have h2 := (List.mem_filter.mp hmem).2
      simp only [decide_eq_true_eq] at h2
      exact absurd ⟨hsy, hsd⟩ h2
    · simpa using hmem
  · intro r hr hne
    exact List.mem_append.mpr (.inl (List.mem_filter.mpr ⟨hr, decide_eq_true hne⟩))

/-- Witness for C7's amended statement at a concrete registry holding one
NVDA event. -/
theorem C7_registry_write_semantics_witness :
    splitsInsertOrIgnore
        [{ symbol := "NVDA", split_date := 20240607, split_ratio := 10
           description := "10-for-1 stock split" }]
        { symbol := "NVDA", split_date := 20240607, split_ratio := 4
          description := "dup" }
      = ([{ symbol := "NVDA", split_date := 20240607, split_ratio := 10
            description := "10-for-1 stock split" }], 0) :=
  (C7_registry_write_semantics
      [{ symbol := "NVDA", split_date := 20240607, split_ratio := 10
         description := "10-for-1 stock split" }]
      { symbol := "NVDA", split_date := 20240607, split_ratio := 4
        description := "dup" }
      "NVDA" 20240607 4 "4-for-1 stock split" []
      ⟨{ symbol := "NVDA", split_date := 20240607, split_ratio := 10
         description := "10-for-1 stock split" }, by decide, by decide⟩).1

/-- C3: the upsert accounting of `storeHistoricalData` is broken — a second,
value-identical write of the same batch is counted `inserted` again (INSERT
OR REPLACE always reports `changes = 1` and a fresh `lastID`, so the
`updated` and `skipped` branches are unreachable), where the claim and the
function's own accounting structure call for `skipped`; the UNIQUE key does
keep a single row per (symbol, date). -/
theorem C3_second_store_counted_inserted :
    (storeHistoricalData (.ok []) { rows := [], nextId := 1 }
        [{ symbol := "X", date := 20240701, «open» := 189, high := 192
           low := 188, close := 190, volume := 1000 }]).2
      = { inserted := 1, updated := 0, skipped := 0 }
    ∧ (storeHistoricalData (.ok [])
          (storeHistoricalData (.ok []) { rows := [], nextId := 1 }
              [{ symbol := "X", date := 20240701, «open» := 189, high := 192
                 low := 188, close := 190, volume := 1000 }]).1
          [{ symbol := "X", date := 20240701, «open» := 189, high := 192
             low := 188, close := 190, volume := 1000 }]).2
      = { inserted := 1, updated := 0, skipped := 0 }
    ∧ ((storeHistoricalData (.ok [])
          (storeHistoricalData (.ok []) { rows := [], nextId := 1 }
              [{ symbol := "X", date := 20240701, «open» := 189, high := 192
                 low := 188, close := 190, volume := 1000 }]).1
          [{ symbol := "X", date := 20240701, «open» := 189, high := 192
             low := 188, close := 190, volume := 1000 }]).1.rows.map
        fun p => (p.2.symbol, p.2.date))
      = [("X", 20240701)] := by
  refine ⟨by decide, by decide, by decide⟩

/-! ### Claims about the query engine -/

/-- C6: with at least one loaded row, `executeMultipleQueries` succeeds with
one entry per named expression, all evaluated against the one shared load
(`loadedContext`); an expression that fails contributes `{error: message}`
under its own key without affecting the envelope, and an expression that
succeeds produces exactly the value `executeQuery` would give it alone. -/
theorem C6_multi_query_isolation {V : Type} (store : List PriceRow)
    (symbol : String) (queries : List (String × Query V)) (o : QueryOptions)
    (hne : getHistoricalData store symbol o ≠ []) :
    executeMultipleQueries store symbol queries o
        = .success symbol (getHistoricalData store symbol o).length
            (queries.map fun kq => (kq.1, kq.2 (loadedContext store symbol o)))
    ∧ (queries.map fun kq => (kq.1, kq.2 (loadedContext store symbol o))).map
          Prod.fst
        = queries.map Prod.fst
    ∧ (∀ k q, (k, q) ∈ queries →
        (∀ m, q (loadedContext store symbol o) = .error m →
          (k, (Except.error m : Except String V))
            ∈ queries.map fun kq => (kq.1, kq.2 (loadedContext store symbol o)))
        ∧ (∀ v, q (loadedContext store symbol o) = .ok v →
            executeQuery store symbol q o
              = .success symbol (getHistoricalData store symbol o).length v)) := by
  refine ⟨?_, ?_, ?_⟩
  · simp [executeMultipleQueries, hne]
  · simp
  · intro k q hkq
    constructor
    · intro m hm
      exact List.mem_map.mpr ⟨(k, q), hkq, by simp [hm]⟩
    · intro v hv
      simp [executeQuery, hne, hv]

/-- Witness for C6: a two-expression batch over a one-row store, one
expression deliberately failing. -/
theorem C6_multi_query_isolation_witness :
    executeMultipleQueries
        [{ symbol := "X", date := 20240701, «open» := 189, high := 192
           low := 188, close := 190, adjusted_close := 190, volume := 1000 }]
        "X"
        [("close0", fun h => .ok (h.data.foldr (fun r _ => r.close) 0)),
         ("bad", fun _ => .error "Unexpected token")]
        {}
      = .success "X" 1
          ([("close0", (fun (h : HistoricalData) =>
                Except.ok (h.data.foldr (fun r _ => r.close) 0))
                (loadedContext
                  [{ symbol := "X", date := 20240701, «open» := 189, high := 192
                     low := 188, close := 190, adjusted_close := 190
                     volume := 1000 }] "X" {})),
            ("bad", Except.error "Unexpected token")]) := by
  have h := (C6_multi_query_isolation
    [{ symbol := "X", date := 20240701, «open» := 189, high := 192
       low := 188, close := 190, adjusted_close := 190, volume := 1000 }]
    "X"
    [("close0", fun h => .ok (h.data.foldr (fun r _ => r.close) 0)),
     ("bad", fun _ => .error "Unexpected token")]
    {} (by decide)).1
  simpa using h

/-! ### Claims about the refresh scheduler -/

theorem findTracked_map_update (l : List TrackedStock) (symbol : String)
    (f : TrackedStock → TrackedStock) (hf : ∀ x, (f x).symbol = x.symbol) :
    (l.map fun r => if r.symbol = jsToUpper symbol then f r else r).find?
        (fun r => r.symbol = jsToUpper symbol)
      = (l.find? fun r => r.symbol = jsToUpper symbol).map f := by
  induction l with
  | nil => rfl
  | cons x xs ih =>
      by_cases h : x.symbol = jsToUpper symbol
      · simp [List.find?_cons, h, hf]
      · simp [List.find?_cons, h, ih]

theorem findTracked_markDataRefreshed (l : List TrackedStock) (symbol : String)
    (today : ℕ) :
    findTracked (markDataRefreshed l symbol today) symbol
      = (findTracked l symbol).map
          fun r => { r with last_data_refresh := some today } := by
  exact findTracked_map_update l symbol _ fun x => rfl

theorem findTracked_markSplitChecked (l : List TrackedStock) (symbol : String)
    (today : ℕ) :
    findTracked (markSplitChecked l symbol today) symbol
      = (findTracked l symbol).map
          fun r => { r with last_split_check := some today } := by
  exact findTracked_map_update l symbol _ fun x => rfl

theorem needsDataRefresh_false (l : List TrackedStock) (symbol : String)
    (today : ℕ) (r : TrackedStock) (h : findTracked l symbol = some r)
    (h2 : r.last_data_refresh = some today) :
    needsDataRefresh l symbol today = false := by
  simp [needsDataRefresh, h, h2]

theorem needsSplitCheck_false (l : List TrackedStock) (symbol : String)
    (today : ℕ) (r : TrackedStock) (h : findTracked l symbol = some r)
    (h2 : r.last_split_check = some today) :
    needsSplitCheck l symbol today = false := by
  simp [needsSplitCheck, h, h2]

theorem last_data_eq_today_of_fresh (l : List TrackedStock) (symbol : String)
    (today : ℕ) (r : TrackedStock) (h : findTracked l symbol = some r)
    (hfresh : needsDataRefresh l symbol today = false)
    (hmono : ∀ d, r.last_data_refresh = some d → d ≤ today) :
    r.last_data_refresh = some today := by
  cases hld : r.last_data_refresh with
  | none => simp [needsDataRefresh, h, hld] at hfresh
  | some d =>
      simp only [needsDataRefresh, h, hld, decide_eq_false_iff_not,
        not_lt] at hfresh
      rw [Nat.le_antisymm (hmono d hld) hfresh]

theorem last_split_eq_today_of_fresh (l : List TrackedStock) (symbol : String)
    (today : ℕ) (r : TrackedStock) (h : findTracked l symbol = some r)
    (hfresh : needsSplitCheck l symbol today = false)
    (hmono : ∀ d, r.last_split_check = some d → d ≤ today) :
    r.last_split_check = some today := by
  cases hld : r.last_split_check with
  | none => simp [needsSplitCheck, h, hld] at hfresh
  | some d =>
      simp only [needsSplitCheck, h, hld, decide_eq_false_iff_not,
        not_lt] at hfresh
      rw [Nat.le_antisymm (hmono d hld) hfresh]

theorem refreshSymbol_noop (st : SchedState) (symbol : String) (today : ℕ)
    (fd : Except String (List StockRecord))
    (fs : Except String (List ProviderSplit))
    (h1 : needsDataRefresh st.tracked symbol today = false)
    (h2 : needsSplitCheck st.tracked symbol today = false) :
    refreshSymbol st symbol today fd fs
      = (st, { symbol := symbol, dataRefreshed := false
               splitsChecked := false, errors := [] }) := by
  unfold refreshSymbol
  simp [h1, h2]

/-- The state after the successful first refresh of the day: the tracked row
carries both of today's stamps and each upstream counter grew by at most
one. -/
theorem refreshSymbol_first (st : SchedState) (symbol : String) (today : ℕ)
    (row : TrackedStock) (hrow : findTracked st.tracked symbol = some row)
    (hd : ∀ d, row.last_data_refresh = some d → d ≤ today)
    (hs : ∀ d, row.last_split_check = some d → d ≤ today)
    (data1 : List StockRecord) (splits1 : List ProviderSplit) :
    ∃ row1,
      findTracked (refreshSymbol st symbol today (.ok data1) (.ok splits1)).1.tracked
          symbol = some row1
      ∧ row1.last_data_refresh = some today
      ∧ row1.last_split_check = some today
      ∧ (refreshSymbol st symbol today (.ok data1) (.ok splits1)).1.dataCalls
          ≤ st.dataCalls + 1
      ∧ (refreshSymbol st symbol today (.ok data1) (.ok splits1)).1.splitCalls
          ≤ st.splitCalls + 1 := by
  cases hneed : needsDataRefresh st.tracked symbol today with
  | true =>
      have hfound :
          findTracked (markDataRefreshed st.tracked symbol today) symbol
            = some { row with last_data_refresh := some today } := by
        rw [findTracked_markDataRefreshed, hrow]
        rfl
      cases hneed2 : needsSplitCheck (markDataRefreshed st.tracked symbol today)
          symbol today with
      | true =>
          have hres : refreshSymbol st symbol today (.ok data1) (.ok splits1)
              = ({ tracked :=
                      markSplitChecked (markDataRefreshed st.tracked symbol today)
                        symbol today
                   splitsTbl := (fetchAndStoreSplits st.splitsTbl symbol splits1).1
                   hist := (storeHistoricalData (.ok st.splitsTbl) st.hist data1).1
                   dataCalls := st.dataCalls + 1
                   splitCalls := st.splitCalls + 1 },
                 { symbol := symbol, dataRefreshed := true, splitsChecked := true
                   errors := [] }) := by
            unfold refreshSymbol
            simp [hneed, hneed2]
          rw [hres]
          refine ⟨{ row with last_data_refresh := some today, last_split_check := some today },
            ?_, rfl, rfl, Nat.le_refl _, Nat.le_refl _⟩
          show findTracked
              (markSplitChecked (markDataRefreshed st.tracked symbol today) symbol today)
              symbol = _
          rw [findTracked_markSplitChecked, hfound]
          rfl
      | false =>
          have hres : refreshSymbol st symbol today (.ok data1) (.ok splits1)
              = ({ tracked := markDataRefreshed st.tracked symbol today
                   splitsTbl := st.splitsTbl
                   hist := (storeHistoricalData (.ok st.splitsTbl) st.hist data1).1
                   dataCalls := st.dataCalls + 1
                   splitCalls := st.splitCalls },
                 { symbol := symbol, dataRefreshed := true, splitsChecked := false
                   errors := [] }) := by
            unfold refreshSymbol
            simp [hneed, hneed2]
          rw [hres]
          have hsplit :
              ({ row with last_data_refresh := some today } : TrackedStock).last_split_check
                = some today :=
            last_split_eq_today_of_fresh _ symbol today _ hfound hneed2 hs
          exact ⟨{ row with last_data_refresh := some today },
            hfound, rfl, hsplit, Nat.le_refl _, Nat.le_succ _⟩
  | false =>
      have hdata : row.last_data_refresh = some today :=
        last_data_eq_today_of_fresh st.tracked symbol today row hrow hneed hd
      cases hneed2 : needsSplitCheck st.tracked symbol today with
      | true =>
          have hres : refreshSymbol st symbol today (.ok data1) (.ok splits1)
              = ({ tracked := markSplitChecked st.tracked symbol today
                   splitsTbl := (fetchAndStoreSplits st.splitsTbl symbol splits1).1
                   hist := st.hist
                   dataCalls := st.dataCalls
                   splitCalls := st.splitCalls + 1 },
                 { symbol := symbol, dataRefreshed := false, splitsChecked := true
                   errors := [] }) := by
            unfold refreshSymbol
            simp [hneed, hneed2]
          rw [hres]
          refine ⟨{ row with last_split_check := some today },
            ?_, hdata, rfl, Nat.le_succ _, Nat.le_refl _⟩
          show findTracked (markSplitChecked st.tracked symbol today) symbol = _
          rw [findTracked_markSplitChecked, hrow]
          rfl
      | false =>
          have hres : refreshSymbol st symbol today (.ok data1) (.ok splits1)
              = (st,
                 { symbol := symbol, dataRefreshed := false, splitsChecked := false
                   errors := [] }) := by
            unfold refreshSymbol
            simp [hneed, hneed2]
          rw [hres]
          have hsplit : row.last_split_check = some today :=
            last_split_eq_today_of_fresh st.tracked symbol today row hrow hneed2 hs
          exact ⟨row, hrow, hdata, hsplit, Nat.le_succ _, Nat.le_succ _⟩

/-- C4: for a tracked symbol whose stored freshness dates are not in the
future, a first `refreshSymbol` with both upstream fetches succeeding stamps
`last_data_refresh` and `last_split_check` with today while attempting each
upstream fetch at most once, and a second `refreshSymbol` on the same day is
a complete no-op: it returns the state unchanged — zero upstream calls —
whatever its fetch arguments would have produced. -/
theorem C4_same_day_refresh_idempotent (st : SchedState) (symbol : String)
    (today : ℕ) (row : TrackedStock)
    (hrow : findTracked st.tracked symbol = some row)
    (hd : ∀ d, row.last_data_refresh = some d → d ≤ today)
    (hs : ∀ d, row.last_split_check = some d → d ≤ today)
    (data1 : List StockRecord) (splits1 : List ProviderSplit)
    (fetchData2 : Except String (List StockRecord))
    (fetchSplits2 : Except String (List ProviderSplit)) :
    (∃ row1,
      findTracked (refreshSymbol st symbol today (.ok data1) (.ok splits1)).1.tracked
          symbol = some row1
      ∧ row1.last_data_refresh = some today
      ∧ row1.last_split_check = some today)
    ∧ (refreshSymbol st symbol today (.ok data1) (.ok splits1)).1.dataCalls
        ≤ st.dataCalls + 1
    ∧ (refreshSymbol st symbol today (.ok data1) (.ok splits1)).1.splitCalls
        ≤ st.splitCalls + 1
    ∧ refreshSymbol (refreshSymbol st symbol today (.ok data1) (.ok splits1)).1
          symbol today fetchData2 fetchSplits2
        = ((refreshSymbol st symbol today (.ok data1) (.ok splits1)).1,
           { symbol := symbol, dataRefreshed := false, splitsChecked := false
             errors := [] }) := by
  obtain ⟨row1, hfind, hldr, hlsc, hdc, hsc⟩ :=
    refreshSymbol_first st symbol today row hrow hd hs data1 splits1
  refine ⟨⟨row1, hfind, hldr, hlsc⟩, hdc, hsc, ?_⟩
  exact refreshSymbol_noop _ symbol today fetchData2 fetchSplits2
    (needsDataRefresh_false _ symbol today row1 hfind hldr)
    (needsSplitCheck_false _ symbol today row1 hfind hlsc)

/-- Witness for C4: one tracked NVDA row never refreshed before, today =
2026-10-12, empty fetch payloads. -/
theorem C4_same_day_refresh_idempotent_witness :
    refreshSymbol
        (refreshSymbol
            { tracked := [{ symbol := "NVDA", name := "NVIDIA"
                            last_data_refresh := none, last_split_check := none }]
              splitsTbl := [], hist := { rows := [], nextId := 1 }
              dataCalls := 0, splitCalls := 0 }
            "NVDA" 20261012 (.ok []) (.ok [])).1
        "NVDA" 20261012 (.error "rate limited") (.error "rate limited")
      = ((refreshSymbol
            { tracked := [{ symbol := "NVDA", name := "NVIDIA"
                            last_data_refresh := none, last_split_check := none }]
              splitsTbl := [], hist := { rows := [], nextId := 1 }
              dataCalls := 0, splitCalls := 0 }
            "NVDA" 20261012 (.ok []) (.ok [])).1,
         { symbol := "NVDA", dataRefreshed := false, splitsChecked := false
           errors := [] }) :=
  (C4_same_day_refresh_idempotent
      { tracked := [{ symbol := "NVDA", name := "NVIDIA"
                      last_data_refresh := none, last_split_check := none }]
        splitsTbl := [], hist := { rows := [], nextId := 1 }
        dataCalls := 0, splitCalls := 0 }
      "NVDA" 20261012
      { symbol := "NVDA", name := "NVIDIA"
        last_data_refresh := none, last_split_check := none }
      (by decide) (by intro d h; cases h) (by intro d h; cases h)
      [] [] (.error "rate limited") (.error "rate limited")).2.2.2

end StockWatch
